import Mathlib

/-!
Verification of the amortization-schedule calculator (`calc/__init__.py`).

The two Python routines `amortization_schedule` and
`adjusted_amortization_schedule` are embedded shallowly over `ℚ`:

* currency amounts and rates are rationals (the Python code uses floats;
  we idealize them as exact reals, which is the reading the specification
  itself takes);
* Python's `round(x, 2)` (banker's rounding to two decimal places) is
  embedded as `pyRound2`, built on round-half-to-even;
* the `datetime` start date and the `"%Y-%m"` month label are modeled as a
  month index `start_date : ℕ`, with `start_date + (m - 1)` standing for
  the label of payment `m` (the date library is an external collaborator);
* the mutable loop of each routine becomes structural recursion on a fuel
  argument, threading an explicit state record that holds exactly the
  variables the Python loop mutates (the running balance and the seven
  cumulative sums);
* the `raise MaxPaymentException` path becomes `Except.error` carrying the
  two values interpolated into the Python message.

Note `ℚ` division totalizes `x / 0` to `0`, where Python raises
`ZeroDivisionError`; the theorems that touch a zero denominator state the
denominator's nullity explicitly.
-/

/-- Round-half-to-even to the nearest integer, as Python's builtin `round`
behaves on exact values. -/
def roundHalfEven (x : ℚ) : ℤ :=
  if x - (⌊x⌋ : ℚ) < 1/2 then ⌊x⌋
  else if 1/2 < x - (⌊x⌋ : ℚ) then ⌊x⌋ + 1
  else if ⌊x⌋ % 2 = 0 then ⌊x⌋ else ⌊x⌋ + 1

/-- Python's `round(x, 2)`: round to two decimal places, ties to even. -/
def pyRound2 (x : ℚ) : ℚ := (roundHalfEven (100 * x) : ℚ) / 100

/-- The loan parameters of both routines, in the order of the Python
signature. `start_date` is the caller-resolved month index standing for the
`datetime` start date. -/
structure LoanParams where
  loan_value : ℚ
  interest : ℚ
  term : ℕ
  down_payment : ℚ
  start_date : ℕ
  property_taxes : ℚ
  home_insurance : ℚ
  hoa_fees : ℚ
  pmi : ℚ
deriving DecidableEq, Repr

/-- One emitted schedule entry: the dictionary appended each month, with the
`"%Y-%m"` label modeled as the month index `month`. -/
structure PaymentRecord where
  month : ℕ
  monthlyPayment : ℚ
  principal : ℚ
  interest : ℚ
  remainingBalance : ℚ
  totalMonthlyPayment : ℚ
  propertyTaxes : ℚ
  homeInsurance : ℚ
  hoaFees : ℚ
  pmi : ℚ
  totalPaymentsSum : ℚ
  interestSum : ℚ
  principalSum : ℚ
  propertyTaxesSum : ℚ
  homeInsuranceSum : ℚ
  hoaFeesSum : ℚ
  pmiSum : ℚ
deriving DecidableEq, Repr

instance : Inhabited PaymentRecord :=
  ⟨⟨0, 0, 0, 0, 0, 0, 0, 0, 0, 0, 0, 0, 0, 0, 0, 0, 0⟩⟩

/-- The loop-carried state of either Python loop: the running balance plus
the seven cumulative-sum variables. -/
structure LoopState where
  loan_amount : ℚ
  total_payments_sum : ℚ
  interest_sum : ℚ
  principal_sum : ℚ
  property_taxes_sum : ℚ
  home_insurance_sum : ℚ
  hoa_fees_sum : ℚ
  pmi_sum : ℚ
deriving DecidableEq, Repr

/-- `monthly_interest_rate = interest / 12 / 100`. -/
def monthlyRate (p : LoanParams) : ℚ := p.interest / 12 / 100

/-- `n_payments = term * 12`. -/
def nPayments (p : LoanParams) : ℕ := p.term * 12

/-- `loan_amount = loan_value - down_payment`. -/
def loanAmount0 (p : LoanParams) : ℚ := p.loan_value - p.down_payment

/-- The fixed monthly payment, exactly the source's annuity expression
`loan_amount * r * (1+r)**n / ((1+r)**n - 1)`. -/
def monthly_payment (p : LoanParams) : ℚ :=
  loanAmount0 p * monthlyRate p * ((1 + monthlyRate p) ^ nPayments p) /
    (((1 + monthlyRate p) ^ nPayments p) - 1)

/-- `monthly_property_taxes = property_taxes / 12`. -/
def monthly_property_taxes (p : LoanParams) : ℚ := p.property_taxes / 12

/-- `monthly_home_insurance = home_insurance / 12`. -/
def monthly_home_insurance (p : LoanParams) : ℚ := p.home_insurance / 12

/-- `total_monthly_payment`, the month-1 PITI of the standard routine:
payment plus pro-rated tax and insurance plus the flat (already monthly)
HOA and PMI amounts. -/
def total_monthly_payment (p : LoanParams) : ℚ :=
  monthly_payment p + monthly_property_taxes p + monthly_home_insurance p +
    p.hoa_fees + p.pmi

/-- The state both loops start from: the post-down-payment balance and
zeroed cumulative sums. -/
def initState (p : LoanParams) : LoopState :=
  { loan_amount := loanAmount0 p
    total_payments_sum := 0
    interest_sum := 0
    principal_sum := 0
    property_taxes_sum := 0
    home_insurance_sum := 0
    hoa_fees_sum := 0
    pmi_sum := 0 }

/-- One iteration of the standard loop on the mutated variables:
interest from the entering balance, principal as payment minus interest,
balance decremented, all seven sums incremented. -/
def stdStep (p : LoanParams) (s : LoopState) : LoopState :=
  let interest_payment := s.loan_amount * monthlyRate p
  let principal_payment := monthly_payment p - interest_payment
  { loan_amount := s.loan_amount - principal_payment
    total_payments_sum := s.total_payments_sum + total_monthly_payment p
    interest_sum := s.interest_sum + interest_payment
    principal_sum := s.principal_sum + principal_payment
    property_taxes_sum := s.property_taxes_sum + monthly_property_taxes p
    home_insurance_sum := s.home_insurance_sum + monthly_home_insurance p
    hoa_fees_sum := s.hoa_fees_sum + p.hoa_fees
    pmi_sum := s.pmi_sum + p.pmi }

/-- The record the standard loop appends for `month`, built from the state
`s` entering the iteration (the Python code emits the post-update balance
and sums, which here are those of `stdStep p s`). -/
def stdEmit (p : LoanParams) (month : ℕ) (s : LoopState) : PaymentRecord :=
  let interest_payment := s.loan_amount * monthlyRate p
  let principal_payment := monthly_payment p - interest_payment
  let s' := stdStep p s
  { month := p.start_date + (month - 1)
    monthlyPayment := pyRound2 (monthly_payment p)
    principal := pyRound2 principal_payment
    interest := pyRound2 interest_payment
    remainingBalance := pyRound2 s'.loan_amount
    totalMonthlyPayment := pyRound2 (total_monthly_payment p)
    propertyTaxes := pyRound2 (monthly_property_taxes p)
    homeInsurance := pyRound2 (monthly_home_insurance p)
    hoaFees := pyRound2 p.hoa_fees
    pmi := pyRound2 p.pmi
    totalPaymentsSum := pyRound2 s'.total_payments_sum
    interestSum := pyRound2 s'.interest_sum
    principalSum := pyRound2 s'.principal_sum
    propertyTaxesSum := pyRound2 s'.property_taxes_sum
    homeInsuranceSum := pyRound2 s'.home_insurance_sum
    hoaFeesSum := pyRound2 s'.hoa_fees_sum
    pmiSum := pyRound2 s'.pmi_sum }

/-- The `for month in range(1, n_payments + 1)` loop of the standard
routine, as fuel recursion from the month counter `month`. -/
def stdLoop (p : LoanParams) : LoopState → ℕ → ℕ → List PaymentRecord
  | _, _, 0 => []
  | s, month, fuel + 1 =>
      stdEmit p month s :: stdLoop p (stdStep p s) (month + 1) fuel

/-- Python `amortization_schedule`: the full standard schedule. -/
def amortization_schedule (p : LoanParams) : List PaymentRecord :=
  stdLoop p (initState p) 1 (nPayments p)

/-- The value `raise MaxPaymentException(...)` reports: the supplied cap and
the month-1 total monthly payment interpolated into the message. -/
structure MaxPaymentException where
  max_monthly_payment : ℚ
  total_monthly_payment : ℚ
deriving DecidableEq, Repr

/-- The adjusted routine's `additional_costs` expression: note it divides
`hoa_fees` and `pmi` by 12, unlike the standard routine and unlike the same
function's own `monthly_hoa_fees = hoa_fees` binding. -/
def additional_costs_adj (p : LoanParams) : ℚ :=
  p.property_taxes / 12 + p.home_insurance / 12 + p.hoa_fees / 12 + p.pmi / 12

/-- The monthly additional-costs figure the standard routine folds into
`total_monthly_payment`: pro-rated tax and insurance plus the flat
(already monthly) HOA and PMI. -/
def additional_costs_std (p : LoanParams) : ℚ :=
  (p.property_taxes + p.home_insurance) / 12 + p.hoa_fees + p.pmi

/-- One non-final iteration of the capped loop: interest from the entering
balance, principal as the cap minus interest minus `additional_costs`,
balance decremented, the sums incremented (`total_payments_sum` by the cap,
the HOA and PMI sums by the flat monthly amounts). -/
def adjStep (p : LoanParams) (cap : ℚ) (s : LoopState) : LoopState :=
  let interest_payment := s.loan_amount * monthlyRate p
  let principal_payment := cap - interest_payment - additional_costs_adj p
  { loan_amount := s.loan_amount - principal_payment
    total_payments_sum := s.total_payments_sum + cap
    interest_sum := s.interest_sum + interest_payment
    principal_sum := s.principal_sum + principal_payment
    property_taxes_sum := s.property_taxes_sum + monthly_property_taxes p
    home_insurance_sum := s.home_insurance_sum + monthly_home_insurance p
    hoa_fees_sum := s.hoa_fees_sum + p.hoa_fees
    pmi_sum := s.pmi_sum + p.pmi }

/-- The record the capped loop appends for a non-final `month`: its total
monthly payment is the (rounded) cap itself and its sums are the updated
accumulators. -/
def adjEmitNormal (p : LoanParams) (cap : ℚ) (month : ℕ) (s : LoopState) :
    PaymentRecord :=
  let interest_payment := s.loan_amount * monthlyRate p
  let principal_payment := cap - interest_payment - additional_costs_adj p
  let s' := adjStep p cap s
  { month := p.start_date + (month - 1)
    monthlyPayment := pyRound2 (principal_payment + interest_payment)
    principal := pyRound2 principal_payment
    interest := pyRound2 interest_payment
    remainingBalance := pyRound2 s'.loan_amount
    totalMonthlyPayment := pyRound2 cap
    propertyTaxes := pyRound2 (monthly_property_taxes p)
    homeInsurance := pyRound2 (monthly_home_insurance p)
    hoaFees := pyRound2 p.hoa_fees
    pmi := pyRound2 p.pmi
    totalPaymentsSum := pyRound2 s'.total_payments_sum
    interestSum := pyRound2 s'.interest_sum
    principalSum := pyRound2 s'.principal_sum
    propertyTaxesSum := pyRound2 s'.property_taxes_sum
    homeInsuranceSum := pyRound2 s'.home_insurance_sum
    hoaFeesSum := pyRound2 s'.hoa_fees_sum
    pmiSum := pyRound2 s'.pmi_sum }

/-- The record the capped loop appends when the updated balance drops to or
below zero: `loan_amount` is zeroed first, so the subsequent
`principal_payment += loan_amount` adds nothing; the record carries the
accumulator values from before this month (the sums are not updated on this
path) and a total monthly payment recombined from the unclamped
components. -/
def adjEmitFinal (p : LoanParams) (cap : ℚ) (month : ℕ) (s : LoopState) :
    PaymentRecord :=
  let interest_payment := s.loan_amount * monthlyRate p
  let principal_payment := cap - interest_payment - additional_costs_adj p
  let loan_amount : ℚ := 0
  let principal_payment := principal_payment + loan_amount
  { month := p.start_date + (month - 1)
    monthlyPayment := pyRound2 (principal_payment + interest_payment)
    principal := pyRound2 principal_payment
    interest := pyRound2 interest_payment
    remainingBalance := pyRound2 loan_amount
    totalMonthlyPayment :=
      pyRound2 (principal_payment + interest_payment + additional_costs_adj p)
    propertyTaxes := pyRound2 (monthly_property_taxes p)
    homeInsurance := pyRound2 (monthly_home_insurance p)
    hoaFees := pyRound2 p.hoa_fees
    pmi := pyRound2 p.pmi
    totalPaymentsSum := pyRound2 s.total_payments_sum
    interestSum := pyRound2 s.interest_sum
    principalSum := pyRound2 s.principal_sum
    propertyTaxesSum := pyRound2 s.property_taxes_sum
    homeInsuranceSum := pyRound2 s.home_insurance_sum
    hoaFeesSum := pyRound2 s.hoa_fees_sum
    pmiSum := pyRound2 s.pmi_sum }

/-- The `for month in range(1, len(schedule) + 1)` loop of the adjusted
routine, with its `break` on payoff: the final record ends the list. -/
def adjLoop (p : LoanParams) (cap : ℚ) :
    LoopState → ℕ → ℕ → List PaymentRecord
  | _, _, 0 => []
  | s, month, fuel + 1 =>
      if s.loan_amount -
          (cap - s.loan_amount * monthlyRate p - additional_costs_adj p) ≤ 0 then
        [adjEmitFinal p cap month s]
      else adjEmitNormal p cap month s :: adjLoop p cap (adjStep p cap s) (month + 1) fuel

/-- Python `adjusted_amortization_schedule`: build the standard schedule;
with no cap return it unchanged; otherwise validate the cap against the
first record's (rounded) `Total Monthly Payment` field, raising
`MaxPaymentException` with both values, and on success rerun the recurrence
under the cap. -/
def adjusted_amortization_schedule (p : LoanParams) (max_monthly_payment : Option ℚ) :
    Except MaxPaymentException (List PaymentRecord) :=
  let schedule := amortization_schedule p
  match max_monthly_payment with
  | none => Except.ok schedule
  | some cap =>
      let tmp := schedule.headI.totalMonthlyPayment
      if cap ≤ tmp then
        Except.error ⟨cap, tmp⟩
      else
        Except.ok (adjLoop p cap (initState p) 1 schedule.length)

/-- The exact (unrounded) running balance of the standard loop after `m`
payments. -/
def stdBal (p : LoanParams) : ℕ → ℚ
  | 0 => loanAmount0 p
  | m + 1 => stdBal p m - (monthly_payment p - stdBal p m * monthlyRate p)

/-- The exact (unrounded) running balance of the capped loop after `m`
payments at cap `cap`. -/
def adjBal (p : LoanParams) (cap : ℚ) : ℕ → ℚ
  | 0 => loanAmount0 p
  | m + 1 => adjBal p cap m -
      (cap - adjBal p cap m * monthlyRate p - additional_costs_adj p)

/-- The capped loop's state after `k` non-final iterations. -/
def adjStateK (p : LoanParams) (cap : ℚ) : ℕ → LoopState
  | 0 => initState p
  | k + 1 => adjStep p cap (adjStateK p cap k)

/-! ### Concrete parameter sets used as witnesses and counterexamples.
With `interest = 1200` the monthly rate is exactly `1`, so `(1+r)^n` is a
power of two and every figure is a small exact rational. -/

/-- A 1-year loan of 4095 at 1200% annual interest: the annuity payment is
exactly 4096 and the whole schedule is integral. -/
def exLoan : LoanParams := ⟨4095, 1200, 1, 0, 5, 0, 0, 0, 0⟩

/-- `exLoan` with a monthly HOA fee of 0.996: the exact PITI is 4096.996,
whose 2-decimal rounding is 4097. -/
def exLoanHigh : LoanParams := ⟨4095, 1200, 1, 0, 0, 0, 0, 996/1000, 0⟩

/-- `exLoan` with a monthly HOA fee of 0.004: the exact PITI is 4096.004,
whose 2-decimal rounding is 4096. -/
def exLoanLow : LoanParams := ⟨4095, 1200, 1, 0, 0, 0, 0, 4/1000, 0⟩

/-- A 1-year loan of 4.095 at 1200% annual interest: the first principal
payments are 0.001, 0.002, ..., far below the 2-decimal resolution. -/
def exLoanSmall : LoanParams := ⟨819/200, 1200, 1, 0, 0, 0, 0, 0, 0⟩

/-- A 1-year loan of 100 at 1200% annual interest: any generous cap pays it
off in the very first month. -/
def exLoanPayoff : LoanParams := ⟨100, 1200, 1, 0, 0, 0, 0, 0, 0⟩

/-- A 1-year loan of 1200 at 0% interest: the annuity denominator is zero. -/
def exLoanZeroRate : LoanParams := ⟨1200, 0, 1, 0, 0, 0, 0, 0, 0⟩

/-- A loan with a monthly HOA fee of 12: the two routines disagree on the
monthly additional costs (12 versus 1). -/
def exLoanHOA : LoanParams := ⟨1000, 60, 30, 0, 0, 0, 0, 12, 0⟩

/-! ### Rounding lemmas -/

theorem abs_roundHalfEven_sub_le (x : ℚ) : |(roundHalfEven x : ℚ) - x| ≤ 1/2 := by
  have h0 : (⌊x⌋ : ℚ) ≤ x := Int.floor_le x
  have h1 : x < (⌊x⌋ : ℚ) + 1 := Int.lt_floor_add_one x
  unfold roundHalfEven
  split_ifs with ha hb hc
  · rw [abs_le]; constructor <;> linarith
  · rw [abs_le]; push_cast; constructor <;> linarith
  · rw [abs_le]
    have h : x - (⌊x⌋ : ℚ) = 1/2 := le_antisymm (le_of_not_lt hb) (le_of_not_lt ha)
    constructor <;> linarith
  · rw [abs_le]
    have h : x - (⌊x⌋ : ℚ) = 1/2 := le_antisymm (le_of_not_lt hb) (le_of_not_lt ha)
    push_cast; constructor <;> linarith

theorem roundHalfEven_mono {x y : ℚ} (h : x ≤ y) :
    roundHalfEven x ≤ roundHalfEven y := by
  rcases lt_or_le ⌊x⌋ ⌊y⌋ with hf | hf
  · have hx : roundHalfEven x ≤ ⌊x⌋ + 1 := by
      unfold roundHalfEven; split_ifs <;> omega
    have hy : ⌊y⌋ ≤ roundHalfEven y := by
      unfold roundHalfEven; split_ifs <;> omega
    omega
  · have hfe : ⌊x⌋ = ⌊y⌋ := le_antisymm (Int.floor_le_floor h) hf
    have hxy : x - (⌊x⌋ : ℚ) ≤ y - (⌊y⌋ : ℚ) := by
      rw [hfe]; linarith
    unfold roundHalfEven
    rw [hfe] at hxy ⊢
    split_ifs <;> first | omega | linarith

theorem pyRound2_mono {x y : ℚ} (h : x ≤ y) : pyRound2 x ≤ pyRound2 y := by
  unfold pyRound2
  have h2 : roundHalfEven (100 * x) ≤ roundHalfEven (100 * y) :=
    roundHalfEven_mono (by linarith)
  have h3 : (roundHalfEven (100 * x) : ℚ) ≤ (roundHalfEven (100 * y) : ℚ) := by
    exact_mod_cast h2
  linarith

theorem pyRound2_zero : pyRound2 0 = 0 := by
  norm_num [pyRound2, roundHalfEven]

theorem abs_roundHalfEven_add_sub_le (x y : ℚ) :
    |(roundHalfEven (x + y) : ℚ) - (roundHalfEven x : ℚ) - (roundHalfEven y : ℚ)| ≤ 1 := by
  have hx := abs_le.mp (abs_roundHalfEven_sub_le x)
  have hy := abs_le.mp (abs_roundHalfEven_sub_le y)
  have hxy := abs_le.mp (abs_roundHalfEven_sub_le (x + y))
  have h32 : |(roundHalfEven (x + y) : ℚ) - (roundHalfEven x : ℚ) - (roundHalfEven y : ℚ)|
      ≤ 3/2 := by
    rw [abs_le]; constructor <;> linarith [hx.1, hx.2, hy.1, hy.2, hxy.1, hxy.2]
  have hd : |roundHalfEven (x + y) - roundHalfEven x - roundHalfEven y| ≤ 1 := by
    have hcast : ((|roundHalfEven (x + y) - roundHalfEven x - roundHalfEven y| : ℤ) : ℚ)
        ≤ 3/2 := by
      rw [Int.cast_abs]; push_cast at h32 ⊢; exact h32
    have := Int.le_floor.mpr hcast
    norm_num at this
    exact this
  have : ((|roundHalfEven (x + y) - roundHalfEven x - roundHalfEven y| : ℤ) : ℚ) ≤ 1 := by
    exact_mod_cast hd
  rw [Int.cast_abs] at this
  push_cast at this ⊢
  exact this

theorem abs_pyRound2_add_sub_le (a b : ℚ) :
    |pyRound2 (a + b) - (pyRound2 a + pyRound2 b)| ≤ 1/100 := by
  unfold pyRound2
  have h100 : 100 * (a + b) = 100 * a + 100 * b := by ring
  rw [h100]
  have h := abs_roundHalfEven_add_sub_le (100 * a) (100 * b)
  have heq : (roundHalfEven (100 * a + 100 * b) : ℚ) / 100 -
      ((roundHalfEven (100 * a) : ℚ) / 100 + (roundHalfEven (100 * b) : ℚ) / 100) =
      ((roundHalfEven (100 * a + 100 * b) : ℚ) - (roundHalfEven (100 * a) : ℚ) -
        (roundHalfEven (100 * b) : ℚ)) / 100 := by ring
  rw [heq, abs_div]
  rw [show |(100 : ℚ)| = 100 by norm_num]
  linarith

/-! ### Structure of the standard loop -/

theorem stdLoop_length (p : LoanParams) :
    ∀ (fuel : ℕ) (s : LoopState) (month : ℕ),
      (stdLoop p s month fuel).length = fuel := by
  intro fuel
  induction fuel with
  | zero => intro s month; rfl
  | succ n ih => intro s month; simp [stdLoop, ih]

theorem amortization_schedule_length (p : LoanParams) :
    (amortization_schedule p).length = p.term * 12 := by
  unfold amortization_schedule
  rw [stdLoop_length]
  rfl

theorem stdLoop_get (p : LoanParams) :
    ∀ (fuel : ℕ) (s : LoopState) (month i : ℕ)
      (h : i < (stdLoop p s month fuel).length),
      (stdLoop p s month fuel).get ⟨i, h⟩ =
        stdEmit p (month + i) ((stdStep p)^[i] s) := by
  intro fuel
  induction fuel with
  | zero => intro s month i h; simp [stdLoop] at h
  | succ n ih =>
      intro s month i h
      match i with
      | 0 => simp [stdLoop]
      | Nat.succ j =>
          have h' : j < (stdLoop p (stdStep p s) (month + 1) n).length := by
            have := h
            simp only [stdLoop, List.length_cons] at this
            simpa using Nat.lt_of_succ_lt_succ this
          have := ih (stdStep p s) (month + 1) j h'
          simp only [stdLoop, List.get_cons_succ]
          rw [this, Function.iterate_succ_apply]
          congr 1
          omega

theorem stdStep_iterate_loan (p : LoanParams) :
    ∀ k : ℕ, ((stdStep p)^[k] (initState p)).loan_amount = stdBal p k := by
  intro k
  induction k with
  | zero => rfl
  | succ n ih =>
      rw [Function.iterate_succ_apply']
      simp only [stdStep, stdBal, ih]

theorem amort_get_month (p : LoanParams) (i : ℕ)
    (h : i < (amortization_schedule p).length) :
    ((amortization_schedule p).get ⟨i, h⟩).month = p.start_date + i := by
  unfold amortization_schedule at h ⊢
  rw [stdLoop_get p (nPayments p) (initState p) 1 i h]
  simp [stdEmit]

theorem amort_get_remainingBalance (p : LoanParams) (i : ℕ)
    (h : i < (amortization_schedule p).length) :
    ((amortization_schedule p).get ⟨i, h⟩).remainingBalance =
      pyRound2 (stdBal p (i + 1)) := by
  unfold amortization_schedule at h ⊢
  rw [stdLoop_get p (nPayments p) (initState p) 1 i h]
  have : ((stdStep p) ((stdStep p)^[i] (initState p))).loan_amount = stdBal p (i + 1) := by
    have h2 := stdStep_iterate_loan p (i + 1)
    rw [Function.iterate_succ_apply'] at h2
    exact h2
  simp only [stdEmit, stdStep] at this ⊢
  rw [← this]

/-! ### The exact balance trajectory of the standard schedule -/

theorem one_lt_pow_rate (p : LoanParams) (hr : 0 < monthlyRate p)
    (hn : nPayments p ≠ 0) : 1 < (1 + monthlyRate p) ^ nPayments p :=
  one_lt_pow₀ (by linarith) hn

theorem loanr_lt_payment (p : LoanParams) (hr : 0 < monthlyRate p)
    (hL : 0 < loanAmount0 p) (hn : nPayments p ≠ 0) :
    loanAmount0 p * monthlyRate p < monthly_payment p := by
  have hA := one_lt_pow_rate p hr hn
  have hLr : 0 < loanAmount0 p * monthlyRate p := mul_pos hL hr
  unfold monthly_payment
  rw [lt_div_iff₀ (by linarith)]
  nlinarith

theorem stdBal_mul_rate_lt (p : LoanParams) (hr : 0 < monthlyRate p)
    (hL : 0 < loanAmount0 p) (hn : nPayments p ≠ 0) :
    ∀ m : ℕ, stdBal p m * monthlyRate p < monthly_payment p := by
  intro m
  induction m with
  | zero => simpa [stdBal] using loanr_lt_payment p hr hL hn
  | succ m ih =>
      have h2 := mul_lt_mul_of_pos_right ih
        (show (0:ℚ) < 1 + monthlyRate p by linarith)
      simp only [stdBal]
      nlinarith

theorem stdBal_succ_lt (p : LoanParams) (hr : 0 < monthlyRate p)
    (hL : 0 < loanAmount0 p) (hn : nPayments p ≠ 0) (m : ℕ) :
    stdBal p (m + 1) < stdBal p m := by
  have := stdBal_mul_rate_lt p hr hL hn m
  simp only [stdBal]
  linarith

theorem stdBal_anti (p : LoanParams) (hr : 0 < monthlyRate p)
    (hL : 0 < loanAmount0 p) (hn : nPayments p ≠ 0) {a b : ℕ} (h : a ≤ b) :
    stdBal p b ≤ stdBal p a := by
  induction h with
  | refl => exact le_refl _
  | step h ih =>
      exact le_trans (le_of_lt (stdBal_succ_lt p hr hL hn _)) ih

theorem stdBal_closed (p : LoanParams) (hr0 : monthlyRate p ≠ 0) :
    ∀ m : ℕ, stdBal p m = loanAmount0 p * (1 + monthlyRate p) ^ m -
      monthly_payment p * ((1 + monthlyRate p) ^ m - 1) / monthlyRate p := by
  intro m
  induction m with
  | zero => simp [stdBal]
  | succ m ih =>
      simp only [stdBal, ih, pow_succ]
      field_simp
      ring

theorem stdBal_final (p : LoanParams) (hr : 0 < monthlyRate p)
    (hn : nPayments p ≠ 0) : stdBal p (nPayments p) = 0 := by
  have hA := one_lt_pow_rate p hr hn
  have hr0 : monthlyRate p ≠ 0 := ne_of_gt hr
  have hA0 : (1 + monthlyRate p) ^ nPayments p - 1 ≠ 0 := ne_of_gt (by linarith)
  rw [stdBal_closed p hr0 (nPayments p)]
  unfold monthly_payment
  field_simp
  ring

/-! ### Structure of the capped loop -/

theorem adjStateK_spec (p : LoanParams) (cap : ℚ) :
    ∀ k : ℕ, adjStateK p cap k =
      { loan_amount := adjBal p cap k
        total_payments_sum := (k : ℚ) * cap
        interest_sum := ∑ j in Finset.range k, adjBal p cap j * monthlyRate p
        principal_sum := ∑ j in Finset.range k,
          (cap - adjBal p cap j * monthlyRate p - additional_costs_adj p)
        property_taxes_sum := (k : ℚ) * monthly_property_taxes p
        home_insurance_sum := (k : ℚ) * monthly_home_insurance p
        hoa_fees_sum := (k : ℚ) * p.hoa_fees
        pmi_sum := (k : ℚ) * p.pmi } := by
  intro k
  induction k with
  | zero => simp [adjStateK, initState, adjBal]
  | succ k ih =>
      rw [adjStateK, ih]
      unfold adjStep
      dsimp only
      congr 1 <;> push_cast [Finset.sum_range_succ, adjBal] <;> ring

theorem adjLoop_length_le (p : LoanParams) (cap : ℚ) :
    ∀ (fuel : ℕ) (s : LoopState) (month : ℕ),
      (adjLoop p cap s month fuel).length ≤ fuel := by
  intro fuel
  induction fuel with
  | zero => intro s month; simp [adjLoop]
  | succ n ih =>
      intro s month
      simp only [adjLoop]
      split_ifs with h
      · simp
      · simpa using Nat.succ_le_succ (ih (adjStep p cap s) (month + 1))

theorem adjLoop_final_step (p : LoanParams) (cap : ℚ) (s : LoopState)
    (month fuel : ℕ)
    (h : s.loan_amount -
      (cap - s.loan_amount * monthlyRate p - additional_costs_adj p) ≤ 0) :
    adjLoop p cap s month (fuel + 1) = [adjEmitFinal p cap month s] := by
  simp only [adjLoop]
  rw [if_pos h]

theorem adjLoop_payoff (p : LoanParams) (cap : ℚ) :
    ∀ (fuel k0 k : ℕ), k0 < k → k ≤ k0 + fuel →
      adjBal p cap k ≤ 0 →
      (∀ j, k0 < j → j < k → 0 < adjBal p cap j) →
      ∃ pre : List PaymentRecord,
        adjLoop p cap (adjStateK p cap k0) (k0 + 1) fuel =
          pre ++ [adjEmitFinal p cap k (adjStateK p cap (k - 1))] ∧
        pre.length + 1 = k - k0 := by
  intro fuel
  induction fuel with
  | zero => intro k0 k h1 h2 _ _; omega
  | succ n ih =>
      intro k0 k h1 h2 hk hpos
      have hla : (adjStateK p cap k0).loan_amount -
          (cap - (adjStateK p cap k0).loan_amount * monthlyRate p -
            additional_costs_adj p) = adjBal p cap (k0 + 1) := by
        rw [adjStateK_spec]
        simp [adjBal]
      by_cases hk1 : k = k0 + 1
      · subst hk1
        refine ⟨[], ?_, by simp⟩
        rw [adjLoop_final_step p cap _ _ n (by rw [hla]; exact hk)]
        simp
      · have hk0 : k0 + 1 < k := by omega
        have hposk1 : 0 < adjBal p cap (k0 + 1) := hpos _ (by omega) hk0
        have hstep : adjStep p cap (adjStateK p cap k0) = adjStateK p cap (k0 + 1) := rfl
        obtain ⟨pre, hpre, hlen⟩ := ih (k0 + 1) k hk0 (by omega) hk
          (fun j hj1 hj2 => hpos j (by omega) hj2)
        refine ⟨adjEmitNormal p cap (k0 + 1) (adjStateK p cap k0) :: pre,
          ?_, by simp only [List.length_cons]; omega⟩
        simp only [adjLoop]
        rw [if_neg (by rw [hla]; exact not_le.mpr hposk1), hstep, hpre]
        simp

/-! ### Unfolding the adjusted routine's branches -/

theorem adjusted_none (p : LoanParams) :
    adjusted_amortization_schedule p none = Except.ok (amortization_schedule p) := rfl

theorem adjusted_some_error (p : LoanParams) (cap : ℚ)
    (h : cap ≤ (amortization_schedule p).headI.totalMonthlyPayment) :
    adjusted_amortization_schedule p (some cap) =
      Except.error ⟨cap, (amortization_schedule p).headI.totalMonthlyPayment⟩ := by
  unfold adjusted_amortization_schedule
  simp only [if_pos h]

theorem adjusted_some_ok (p : LoanParams) (cap : ℚ)
    (h : (amortization_schedule p).headI.totalMonthlyPayment < cap) :
    adjusted_amortization_schedule p (some cap) =
      Except.ok (adjLoop p cap (initState p) 1 (amortization_schedule p).length) := by
  unfold adjusted_amortization_schedule
  simp only [if_neg (not_le.mpr h)]

theorem headI_totalMonthlyPayment (p : LoanParams) (h : 0 < p.term) :
    (amortization_schedule p).headI.totalMonthlyPayment =
      pyRound2 (total_monthly_payment p) := by
  obtain ⟨m, hm⟩ : ∃ m, nPayments p = m + 1 :=
    ⟨nPayments p - 1, by unfold nPayments; omega⟩
  unfold amortization_schedule
  rw [hm]
  rfl

/-! ### Shape of every emitted record: the three payment components -/

theorem stdLoop_component_shape (p : LoanParams) :
    ∀ (fuel : ℕ) (s : LoopState) (month : ℕ) (r : PaymentRecord),
      r ∈ stdLoop p s month fuel →
      ∃ a b : ℚ, r.monthlyPayment = pyRound2 (a + b) ∧
        r.principal = pyRound2 a ∧ r.interest = pyRound2 b := by
  intro fuel
  induction fuel with
  | zero => intro s month r h; simp [stdLoop] at h
  | succ n ih =>
      intro s month r h
      simp only [stdLoop, List.mem_cons] at h
      rcases h with h | h
      · subst h
        refine ⟨monthly_payment p - s.loan_amount * monthlyRate p,
          s.loan_amount * monthlyRate p, ?_, rfl, rfl⟩
        show pyRound2 (monthly_payment p) = _
        congr 1
        ring
      · exact ih _ _ _ h

theorem adjLoop_component_shape (p : LoanParams) (cap : ℚ) :
    ∀ (fuel : ℕ) (s : LoopState) (month : ℕ) (r : PaymentRecord),
      r ∈ adjLoop p cap s month fuel →
      ∃ a b : ℚ, r.monthlyPayment = pyRound2 (a + b) ∧
        r.principal = pyRound2 a ∧ r.interest = pyRound2 b := by
  intro fuel
  induction fuel with
  | zero => intro s month r h; simp [adjLoop] at h
  | succ n ih =>
      intro s month r h
      simp only [adjLoop] at h
      split_ifs at h with hc
      · simp only [List.mem_singleton] at h
        subst h
        exact ⟨cap - s.loan_amount * monthlyRate p - additional_costs_adj p + 0,
          s.loan_amount * monthlyRate p, rfl, rfl, rfl⟩
      · simp only [List.mem_cons] at h
        rcases h with h | h
        · subst h
          exact ⟨cap - s.loan_amount * monthlyRate p - additional_costs_adj p,
            s.loan_amount * monthlyRate p, rfl, rfl, rfl⟩
        · exact ih _ _ _ h

/-! ### Evaluating `pyRound2` on concrete values -/

theorem pyRound2_eq_down (x : ℚ) (n : ℤ) (h1 : (n : ℚ) ≤ 100 * x)
    (h2 : 100 * x - (n : ℚ) < 1/2) : pyRound2 x = (n : ℚ) / 100 := by
  have hf : ⌊100 * x⌋ = n := Int.floor_eq_iff.mpr ⟨h1, by linarith⟩
  unfold pyRound2 roundHalfEven
  rw [hf, if_pos h2]

theorem pyRound2_eq_up (x : ℚ) (n : ℤ) (h1 : 1/2 < 100 * x - (n : ℚ))
    (h2 : 100 * x < (n : ℚ) + 1) : pyRound2 x = ((n : ℚ) + 1) / 100 := by
  have hf : ⌊100 * x⌋ = n := Int.floor_eq_iff.mpr ⟨by linarith, by linarith⟩
  unfold pyRound2 roundHalfEven
  rw [hf, if_neg (by linarith), if_pos h1]
  push_cast
  ring

/-! ### Concrete month-1 PITI fields for the example parameter sets -/

theorem tmp_exLoanHigh : total_monthly_payment exLoanHigh = 4096996/1000 := by
  norm_num [total_monthly_payment, monthly_payment, monthly_property_taxes,
    monthly_home_insurance, monthlyRate, nPayments, loanAmount0, exLoanHigh]

theorem headI_tmp_exLoanHigh :
    (amortization_schedule exLoanHigh).headI.totalMonthlyPayment = 4097 := by
  rw [headI_totalMonthlyPayment exLoanHigh (by decide), tmp_exLoanHigh,
    pyRound2_eq_up (4096996/1000) 409699 (by norm_num) (by norm_num)]
  norm_num

theorem tmp_exLoanLow : total_monthly_payment exLoanLow = 4096004/1000 := by
  norm_num [total_monthly_payment, monthly_payment, monthly_property_taxes,
    monthly_home_insurance, monthlyRate, nPayments, loanAmount0, exLoanLow]

theorem headI_tmp_exLoanLow :
    (amortization_schedule exLoanLow).headI.totalMonthlyPayment = 4096 := by
  rw [headI_totalMonthlyPayment exLoanLow (by decide), tmp_exLoanLow,
    pyRound2_eq_down (4096004/1000) 409600 (by norm_num) (by norm_num)]
  norm_num

theorem tmp_exLoanPayoff : total_monthly_payment exLoanPayoff = 81920/819 := by
  norm_num [total_monthly_payment, monthly_payment, monthly_property_taxes,
    monthly_home_insurance, monthlyRate, nPayments, loanAmount0, exLoanPayoff]

theorem headI_tmp_exLoanPayoff :
    (amortization_schedule exLoanPayoff).headI.totalMonthlyPayment = 10002/100 := by
  rw [headI_totalMonthlyPayment exLoanPayoff (by decide), tmp_exLoanPayoff,
    pyRound2_eq_down (81920/819) 10002 (by norm_num) (by norm_num)]
  norm_num

/-! ## Claims -/

/-- C6: when `maxMonthlyPayment` is absent (`none`), the capped adjuster
returns exactly the schedule produced by the standard generator for the same
parameters, unchanged. -/
theorem c6_none_delegates_to_standard (p : LoanParams) :
    adjusted_amortization_schedule p none = Except.ok (amortization_schedule p) :=
  adjusted_none p

/-- C1: for a positive term (the routine indexes `schedule[0]`, so the spec's
positive-term precondition is assumed), the capped adjuster fails if and only
if a cap is supplied that is ≤ the standard schedule's month-1 Total Monthly
Payment field, and the raised `MaxPaymentException` carries both the supplied
cap and that month-1 PITI value; the `Except.error` result carries no
schedule. -/
theorem c1_cap_validation (p : LoanParams) (mcap : Option ℚ) (ht : 0 < p.term) :
    ((∃ e, adjusted_amortization_schedule p mcap = Except.error e) ↔
      (∃ cap, mcap = some cap ∧
        cap ≤ (amortization_schedule p).headI.totalMonthlyPayment)) ∧
    (∀ cap, mcap = some cap →
      cap ≤ (amortization_schedule p).headI.totalMonthlyPayment →
      adjusted_amortization_schedule p mcap =
        Except.error ⟨cap, (amortization_schedule p).headI.totalMonthlyPayment⟩) := by
  cases mcap with
  | none =>
      refine ⟨⟨?_, ?_⟩, ?_⟩
      · rintro ⟨e, he⟩
        rw [adjusted_none] at he
        exact absurd he (by simp)
      · rintro ⟨cap, hcap, _⟩
        exact absurd hcap (by simp)
      · intro cap hcap
        exact absurd hcap (by simp)
  | some c =>
      by_cases hc : c ≤ (amortization_schedule p).headI.totalMonthlyPayment
      · refine ⟨⟨fun _ => ⟨c, rfl, hc⟩,
          fun _ => ⟨_, adjusted_some_error p c hc⟩⟩, ?_⟩
        intro cap hcap hle
        injection hcap with h
        subst h
        exact adjusted_some_error p c hc
      · have hok := adjusted_some_ok p c (not_le.mp hc)
        refine ⟨⟨?_, ?_⟩, ?_⟩
        · rintro ⟨e, he⟩
          rw [hok] at he
          exact absurd he (by simp)
        · rintro ⟨cap, hcap, hle⟩
          injection hcap with h
          subst h
          exact absurd hle hc
        · intro cap hcap hle
          injection hcap with h
          subst h
          exact absurd hle hc

/-- Witness for C1 at a concrete input: the cap 4097 is rejected and the
error carries the cap together with the month-1 PITI field. -/
theorem c1_cap_validation_witness :
    0 < exLoanHigh.term ∧
    adjusted_amortization_schedule exLoanHigh (some 4097) =
      Except.error ⟨4097, (amortization_schedule exLoanHigh).headI.totalMonthlyPayment⟩ :=
  ⟨by decide,
    (c1_cap_validation exLoanHigh (some 4097) (by decide)).2 4097 rfl
      (le_of_eq (headI_tmp_exLoanHigh).symm)⟩

/-- C2 (code bug): the monthly additional-costs figure differs between the
two routines. The standard generator folds `(tax + insurance)/12 + hoa + pmi`
into `total_monthly_payment`; the adjusted routine's `additional_costs`
divides the already-monthly `hoa_fees` and `pmi` by 12 as well, contradicting
its own `monthly_hoa_fees = hoa_fees` binding. At a monthly HOA fee of 12 the
standard figure is 12 but the adjusted figure is 1. -/
theorem c2_additional_costs_mismatch :
    (∀ q : LoanParams, total_monthly_payment q =
      monthly_payment q + additional_costs_std q) ∧
    additional_costs_std exLoanHOA = 12 ∧
    additional_costs_adj exLoanHOA = 1 ∧
    additional_costs_adj exLoanHOA ≠ additional_costs_std exLoanHOA := by
  refine ⟨?_, ?_, ?_, ?_⟩
  · intro q
    unfold total_monthly_payment additional_costs_std monthly_property_taxes
      monthly_home_insurance
    ring
  · norm_num [additional_costs_std, exLoanHOA]
  · norm_num [additional_costs_adj, exLoanHOA]
  · norm_num [additional_costs_adj, additional_costs_std, exLoanHOA]

/-- C3 (code bug): at 0% annual interest the standard generator's annuity
denominator `(1+0)^n - 1` is zero — the Python source divides by zero there
(raising `ZeroDivisionError`) instead of special-casing — and the source
formula (totalized over ℚ) does not equal the claimed special case
`loanAmount / nPayments` (which would be 100 here). -/
theorem c3_zero_rate_no_special_case :
    monthlyRate exLoanZeroRate = 0 ∧
    (1 + monthlyRate exLoanZeroRate) ^ nPayments exLoanZeroRate - 1 = 0 ∧
    loanAmount0 exLoanZeroRate / (nPayments exLoanZeroRate : ℚ) = 100 ∧
    monthly_payment exLoanZeroRate ≠
      loanAmount0 exLoanZeroRate / (nPayments exLoanZeroRate : ℚ) := by
  refine ⟨?_, ?_, ?_, ?_⟩ <;>
    norm_num [monthly_payment, monthlyRate, nPayments, loanAmount0, exLoanZeroRate]

/-- C5 counterexample: the standard loop's body does mutate loop-carried
state other than the running balance — one iteration from the initial state
changes the cumulative interest sum. -/
theorem c5_counterexample :
    (stdStep exLoan (initState exLoan)).interest_sum ≠
      (initState exLoan).interest_sum := by
  norm_num [stdStep, initState, monthlyRate, loanAmount0, exLoan]

/-- C5 (amended): the standard generator emits exactly termYears × 12
records, never exits the loop early, and dates record `m` at
`startDate + (m-1)` months; however, besides the running balance the loop
also carries seven cumulative-sum accumulators, each updated every
iteration as shown. -/
theorem c5_record_count_and_dates (p : LoanParams) :
    (amortization_schedule p).length = p.term * 12 ∧
    (∀ i (h : i < (amortization_schedule p).length),
      ((amortization_schedule p).get ⟨i, h⟩).month = p.start_date + i) ∧
    (∀ s : LoopState, stdStep p s =
      { loan_amount := s.loan_amount -
          (monthly_payment p - s.loan_amount * monthlyRate p)
        total_payments_sum := s.total_payments_sum + total_monthly_payment p
        interest_sum := s.interest_sum + s.loan_amount * monthlyRate p
        principal_sum := s.principal_sum +
          (monthly_payment p - s.loan_amount * monthlyRate p)
        property_taxes_sum := s.property_taxes_sum + monthly_property_taxes p
        home_insurance_sum := s.home_insurance_sum + monthly_home_insurance p
        hoa_fees_sum := s.hoa_fees_sum + p.hoa_fees
        pmi_sum := s.pmi_sum + p.pmi }) :=
  ⟨amortization_schedule_length p, fun i h => amort_get_month p i h, fun _ => rfl⟩

/-- Witness for C5 at a concrete input: 12 records and the first record
dated at the start month. -/
theorem c5_record_count_and_dates_witness :
    (amortization_schedule exLoan).length = 12 ∧
    ((amortization_schedule exLoan).get
      ⟨0, by rw [amortization_schedule_length]; decide⟩).month = 5 := by
  constructor
  · rw [(c5_record_count_and_dates exLoan).1]; decide
  · have h := (c5_record_count_and_dates exLoan).2.1 0
      (by rw [amortization_schedule_length]; decide)
    simpa [exLoan] using h

/-- C7: every record of the standard schedule, and every record of any
successfully returned capped schedule, has its MonthlyPayment field equal to
its Principal field plus its Interest field within ±0.01. -/
theorem c7_component_sum (p : LoanParams) (mcap : Option ℚ) (r : PaymentRecord)
    (h : r ∈ amortization_schedule p ∨
      ∃ sched, adjusted_amortization_schedule p mcap = Except.ok sched ∧
        r ∈ sched) :
    |r.monthlyPayment - (r.principal + r.interest)| ≤ 1/100 := by
  have key : ∃ a b : ℚ, r.monthlyPayment = pyRound2 (a + b) ∧
      r.principal = pyRound2 a ∧ r.interest = pyRound2 b := by
    rcases h with h | ⟨sched, hs, hr⟩
    · exact stdLoop_component_shape p (nPayments p) (initState p) 1 r h
    · cases mcap with
      | none =>
          rw [adjusted_none] at hs
          injection hs with h'
          subst h'
          exact stdLoop_component_shape p (nPayments p) (initState p) 1 r hr
      | some cap =>
          by_cases hc : (amortization_schedule p).headI.totalMonthlyPayment < cap
          · rw [adjusted_some_ok p cap hc] at hs
            injection hs with h'
            subst h'
            exact adjLoop_component_shape p cap
              (amortization_schedule p).length (initState p) 1 r hr
          · rw [adjusted_some_error p cap (not_lt.mp hc)] at hs
            exact absurd hs (by simp)
  obtain ⟨a, b, h1, h2, h3⟩ := key
  rw [h1, h2, h3]
  exact abs_pyRound2_add_sub_le a b

/-- Witness for C7 at a concrete record: the first record of `exLoan`'s
standard schedule. -/
theorem c7_component_sum_witness :
    |((amortization_schedule exLoan).get
        ⟨0, by rw [amortization_schedule_length]; decide⟩).monthlyPayment -
      (((amortization_schedule exLoan).get
        ⟨0, by rw [amortization_schedule_length]; decide⟩).principal +
       ((amortization_schedule exLoan).get
        ⟨0, by rw [amortization_schedule_length]; decide⟩).interest)| ≤ 1/100 :=
  c7_component_sum exLoan none _ (Or.inl (List.get_mem _ _ _))

/-- C8 counterexample: for a positive rate and positive loan amount
(loan 4.095 at monthly rate 1), the emitted Remaining Balance field is NOT
strictly decreasing — records 1 and 2 both carry 4.09 after rounding. -/
theorem c8_counterexample :
    0 < monthlyRate exLoanSmall ∧ 0 < loanAmount0 exLoanSmall ∧
    1 < (amortization_schedule exLoanSmall).length ∧
    ((amortization_schedule exLoanSmall).getD 0 default).remainingBalance =
      ((amortization_schedule exLoanSmall).getD 1 default).remainingBalance := by
  have h0 : (0:ℕ) < (amortization_schedule exLoanSmall).length := by
    rw [amortization_schedule_length]; decide
  have h1 : (1:ℕ) < (amortization_schedule exLoanSmall).length := by
    rw [amortization_schedule_length]; decide
  refine ⟨by norm_num [monthlyRate, exLoanSmall],
    by norm_num [loanAmount0, exLoanSmall], h1, ?_⟩
  rw [List.getD_eq_get _ _ h0, List.getD_eq_get _ _ h1,
    amort_get_remainingBalance exLoanSmall 0 h0,
    amort_get_remainingBalance exLoanSmall 1 h1]
  have hb1 : stdBal exLoanSmall 1 = 4094/1000 := by
    norm_num [stdBal, monthly_payment, monthlyRate, nPayments, loanAmount0,
      exLoanSmall]
  have hb2 : stdBal exLoanSmall 2 = 4092/1000 := by
    norm_num [stdBal, monthly_payment, monthlyRate, nPayments, loanAmount0,
      exLoanSmall]
  rw [hb1, hb2, pyRound2_eq_down (4094/1000) 409 (by norm_num) (by norm_num),
    pyRound2_eq_down (4092/1000) 409 (by norm_num) (by norm_num)]

/-- C8 (amended): for positive rate, positive loan amount and positive term,
the exact running balance of the standard schedule is strictly decreasing
and is exactly 0 after the final payment; the emitted (rounded) Remaining
Balance field is non-increasing month-over-month, and the final record's
Remaining Balance field is exactly 0. -/
theorem c8_balance_monotone (p : LoanParams) (hr : 0 < monthlyRate p)
    (hL : 0 < loanAmount0 p) (ht : 0 < p.term) :
    (∀ m : ℕ, stdBal p (m + 1) < stdBal p m) ∧
    stdBal p (nPayments p) = 0 ∧
    (∀ i j (hi : i < (amortization_schedule p).length)
      (hj : j < (amortization_schedule p).length), i ≤ j →
      ((amortization_schedule p).get ⟨j, hj⟩).remainingBalance ≤
        ((amortization_schedule p).get ⟨i, hi⟩).remainingBalance) ∧
    (∀ (h : (amortization_schedule p).length - 1 <
        (amortization_schedule p).length),
      ((amortization_schedule p).get
        ⟨(amortization_schedule p).length - 1, h⟩).remainingBalance = 0) := by
  have hn : nPayments p ≠ 0 := by unfold nPayments; omega
  refine ⟨stdBal_succ_lt p hr hL hn, stdBal_final p hr hn, ?_, ?_⟩
  · intro i j hi hj hij
    rw [amort_get_remainingBalance p i hi, amort_get_remainingBalance p j hj]
    exact pyRound2_mono (stdBal_anti p hr hL hn (by omega))
  · intro h
    rw [amort_get_remainingBalance p _ h]
    have hlen : (amortization_schedule p).length = nPayments p :=
      amortization_schedule_length p
    have hpos : 0 < (amortization_schedule p).length := by
      rw [hlen]; unfold nPayments; omega
    have : (amortization_schedule p).length - 1 + 1 = nPayments p := by omega
    rw [this, stdBal_final p hr hn, pyRound2_zero]

/-- Witness for C8 (amended) at a concrete input. -/
theorem c8_balance_monotone_witness :
    stdBal exLoan 1 < stdBal exLoan 0 ∧ stdBal exLoan (nPayments exLoan) = 0 := by
  have h := c8_balance_monotone exLoan (by norm_num [monthlyRate, exLoan])
    (by norm_num [loanAmount0, exLoan]) (by decide)
  exact ⟨h.1 0, h.2.1⟩

/-- C4 counterexample: loan 100 at monthly rate 1 with valid cap 1000 (the
month-1 PITI field is 100.02). The first month pays the loan off, and the
single final record's Total Monthly Payment is 1000 — the full cap — while
the payment actually due that month (entering balance + interest +
additional costs) is 200; the emitted principal 900 exceeds the entering
balance 100, because the balance is zeroed before it is added back. -/
theorem c4_counterexample :
    (amortization_schedule exLoanPayoff).headI.totalMonthlyPayment < 1000 ∧
    adjusted_amortization_schedule exLoanPayoff (some 1000) =
      Except.ok [adjEmitFinal exLoanPayoff 1000 1 (initState exLoanPayoff)] ∧
    (adjEmitFinal exLoanPayoff 1000 1 (initState exLoanPayoff)).remainingBalance
      = 0 ∧
    (adjEmitFinal exLoanPayoff 1000 1
      (initState exLoanPayoff)).totalMonthlyPayment = 1000 ∧
    (adjEmitFinal exLoanPayoff 1000 1 (initState exLoanPayoff)).principal
      = 900 ∧
    loanAmount0 exLoanPayoff +
      loanAmount0 exLoanPayoff * monthlyRate exLoanPayoff +
      additional_costs_adj exLoanPayoff = 200 ∧
    (1000 : ℚ) ≠ 200 := by
  have hv : (amortization_schedule exLoanPayoff).headI.totalMonthlyPayment
      < 1000 := by
    rw [headI_tmp_exLoanPayoff]; norm_num
  refine ⟨hv, ?_, ?_, ?_, ?_, ?_, by norm_num⟩
  · rw [adjusted_some_ok exLoanPayoff 1000 hv,
      show (amortization_schedule exLoanPayoff).length = 11 + 1 from by
        rw [amortization_schedule_length]; decide,
      adjLoop_final_step exLoanPayoff 1000 (initState exLoanPayoff) 1 11 (by
        norm_num [initState, loanAmount0, monthlyRate, additional_costs_adj,
          exLoanPayoff])]
  · exact pyRound2_zero
  · simp only [adjEmitFinal, initState]
    norm_num [loanAmount0, monthlyRate, additional_costs_adj, exLoanPayoff]
    rw [pyRound2_eq_down 1000 100000 (by norm_num) (by norm_num)]
    norm_num
  · simp only [adjEmitFinal, initState]
    norm_num [loanAmount0, monthlyRate, additional_costs_adj, exLoanPayoff]
    rw [pyRound2_eq_down 900 90000 (by norm_num) (by norm_num)]
    norm_num
  · norm_num [loanAmount0, monthlyRate, additional_costs_adj, exLoanPayoff]

/-- C4 (amended): the capped loop stops as soon as the updated balance is
≤ 0, emitting exactly one final record: its Remaining Balance is clamped to
0, its monthly payment is principal + interest (excluding additional costs)
with the UNCLAMPED principal `cap - interest - additionalCosts`, and its
total monthly payment is the (rounded) full cap — the zeroed balance is
added to the principal only after clamping, a no-op. Any successfully
returned capped schedule is no longer than the standard schedule. -/
theorem c4_early_termination (p : LoanParams) (cap : ℚ) :
    (∀ sched, adjusted_amortization_schedule p (some cap) = Except.ok sched →
      sched.length ≤ (amortization_schedule p).length) ∧
    (∀ (s : LoopState) (month fuel : ℕ),
      s.loan_amount -
        (cap - s.loan_amount * monthlyRate p - additional_costs_adj p) ≤ 0 →
      adjLoop p cap s month (fuel + 1) = [adjEmitFinal p cap month s] ∧
      (adjEmitFinal p cap month s).remainingBalance = 0 ∧
      (adjEmitFinal p cap month s).monthlyPayment =
        pyRound2 ((cap - s.loan_amount * monthlyRate p -
          additional_costs_adj p) + s.loan_amount * monthlyRate p) ∧
      (adjEmitFinal p cap month s).totalMonthlyPayment = pyRound2 cap) := by
  constructor
  · intro sched hs
    by_cases hc : (amortization_schedule p).headI.totalMonthlyPayment < cap
    · rw [adjusted_some_ok p cap hc] at hs
      injection hs with h'
      rw [← h']
      exact adjLoop_length_le p cap (amortization_schedule p).length
        (initState p) 1
    · rw [adjusted_some_error p cap (not_lt.mp hc)] at hs
      exact absurd hs (by simp)
  · intro s month fuel h
    refine ⟨adjLoop_final_step p cap s month fuel h, pyRound2_zero, ?_, ?_⟩
    · show pyRound2 ((cap - s.loan_amount * monthlyRate p -
        additional_costs_adj p + 0) + s.loan_amount * monthlyRate p) = _
      congr 1
      ring
    · show pyRound2 ((cap - s.loan_amount * monthlyRate p -
        additional_costs_adj p + 0) + s.loan_amount * monthlyRate p +
        additional_costs_adj p) = _
      congr 1
      ring

/-- Witness for C4 (amended) at a concrete input: the single-record payoff
schedule of `exLoanPayoff` under cap 1000. -/
theorem c4_early_termination_witness :
    adjLoop exLoanPayoff 1000 (initState exLoanPayoff) 1 (11 + 1) =
      [adjEmitFinal exLoanPayoff 1000 1 (initState exLoanPayoff)] ∧
    (adjEmitFinal exLoanPayoff 1000 1
      (initState exLoanPayoff)).totalMonthlyPayment = pyRound2 1000 := by
  have h := (c4_early_termination exLoanPayoff 1000).2 (initState exLoanPayoff)
    1 11 (by norm_num [initState, loanAmount0, monthlyRate,
      additional_costs_adj, exLoanPayoff])
  exact ⟨h.1, h.2.2.2⟩

/-- Specialization of the payoff lemma to the loop's actual starting point:
initial state, month counter 1. -/
theorem adjLoop_payoff_from_start (p : LoanParams) (cap : ℚ) (fuel k : ℕ)
    (hk1 : 0 < k) (hk2 : k ≤ fuel) (hpay : adjBal p cap k ≤ 0)
    (hpos : ∀ j, 0 < j → j < k → 0 < adjBal p cap j) :
    ∃ pre : List PaymentRecord,
      adjLoop p cap (initState p) 1 fuel =
        pre ++ [adjEmitFinal p cap k (adjStateK p cap (k - 1))] ∧
      pre.length + 1 = k := by
  obtain ⟨pre, h1, h2⟩ := adjLoop_payoff p cap fuel 0 k hk1 (by omega) hpay
    (fun j hj1 hj2 => hpos j hj1 hj2)
  have h0 : adjStateK p cap 0 = initState p := rfl
  rw [h0, zero_add] at h1
  exact ⟨pre, h1, by omega⟩

/-- C9: when a valid capped run pays off at month `k` — the first month
whose exact balance drops to 0 or below — within the term, the returned
schedule has exactly `k` records and the final record's seven
cumulative-sum fields equal the (rounded) sums over the preceding `k - 1`
months only, excluding the final month's own amounts; in particular all
seven are 0 when the loan pays off in the first month. -/
theorem c9_final_record_sums (p : LoanParams) (cap : ℚ) (k : ℕ)
    (hvalid : (amortization_schedule p).headI.totalMonthlyPayment < cap)
    (hk1 : 1 ≤ k) (hk2 : k ≤ (amortization_schedule p).length)
    (hpay : adjBal p cap k ≤ 0)
    (hpos : ∀ j, 0 < j → j < k → 0 < adjBal p cap j) :
    ∃ sched r,
      adjusted_amortization_schedule p (some cap) = Except.ok sched ∧
      sched.length = k ∧ sched.getLast? = some r ∧
      r.totalPaymentsSum = pyRound2 ((k - 1 : ℕ) * cap) ∧
      r.interestSum = pyRound2 (∑ j in Finset.range (k - 1),
        adjBal p cap j * monthlyRate p) ∧
      r.principalSum = pyRound2 (∑ j in Finset.range (k - 1),
        (cap - adjBal p cap j * monthlyRate p - additional_costs_adj p)) ∧
      r.propertyTaxesSum = pyRound2 ((k - 1 : ℕ) * monthly_property_taxes p) ∧
      r.homeInsuranceSum = pyRound2 ((k - 1 : ℕ) * monthly_home_insurance p) ∧
      r.hoaFeesSum = pyRound2 ((k - 1 : ℕ) * p.hoa_fees) ∧
      r.pmiSum = pyRound2 ((k - 1 : ℕ) * p.pmi) ∧
      (k = 1 → r.totalPaymentsSum = 0 ∧ r.interestSum = 0 ∧
        r.principalSum = 0 ∧ r.propertyTaxesSum = 0 ∧
        r.homeInsuranceSum = 0 ∧ r.hoaFeesSum = 0 ∧ r.pmiSum = 0) := by
  obtain ⟨pre, hpre, hlen⟩ := adjLoop_payoff_from_start p cap
    (amortization_schedule p).length k (by omega) hk2 hpay hpos
  have hspec := adjStateK_spec p cap (k - 1)
  refine ⟨adjLoop p cap (initState p) 1 (amortization_schedule p).length,
    adjEmitFinal p cap k (adjStateK p cap (k - 1)),
    adjusted_some_ok p cap hvalid, ?_, ?_, ?_, ?_, ?_, ?_, ?_, ?_, ?_, ?_⟩
  · rw [hpre, List.length_append, List.length_cons, List.length_nil]
    omega
  · rw [hpre]
    exact List.getLast?_concat pre
  · show pyRound2 (adjStateK p cap (k - 1)).total_payments_sum = _
    rw [hspec]
  · show pyRound2 (adjStateK p cap (k - 1)).interest_sum = _
    rw [hspec]
  · show pyRound2 (adjStateK p cap (k - 1)).principal_sum = _
    rw [hspec]
  · show pyRound2 (adjStateK p cap (k - 1)).property_taxes_sum = _
    rw [hspec]
  · show pyRound2 (adjStateK p cap (k - 1)).home_insurance_sum = _
    rw [hspec]
  · show pyRound2 (adjStateK p cap (k - 1)).hoa_fees_sum = _
    rw [hspec]
  · show pyRound2 (adjStateK p cap (k - 1)).pmi_sum = _
    rw [hspec]
  · intro hke
    subst hke
    exact ⟨pyRound2_zero, pyRound2_zero, pyRound2_zero, pyRound2_zero,
      pyRound2_zero, pyRound2_zero, pyRound2_zero⟩

/-- Witness for C9 at a concrete input: cap 1000 on `exLoanPayoff` pays off
in month 1, and the single final record's cumulative sums are all 0. -/
theorem c9_final_record_sums_witness :
    ∃ sched r,
      adjusted_amortization_schedule exLoanPayoff (some 1000) =
        Except.ok sched ∧
      sched.length = 1 ∧ sched.getLast? = some r ∧
      r.totalPaymentsSum = 0 ∧ r.interestSum = 0 ∧ r.principalSum = 0 ∧
      r.propertyTaxesSum = 0 ∧ r.homeInsuranceSum = 0 ∧ r.hoaFeesSum = 0 ∧
      r.pmiSum = 0 := by
  obtain ⟨sched, r, h1, h2, h3, _, _, _, _, _, _, _, himp⟩ :=
    c9_final_record_sums exLoanPayoff 1000 1
      (by rw [headI_tmp_exLoanPayoff]; norm_num)
      (le_refl 1)
      (by rw [amortization_schedule_length]; decide)
      (by norm_num [adjBal, loanAmount0, monthlyRate, additional_costs_adj,
        exLoanPayoff])
      (fun j hj1 hj2 => absurd hj1 (by omega))
  obtain ⟨z1, z2, z3, z4, z5, z6, z7⟩ := himp rfl
  exact ⟨sched, r, h1, h2, h3, z1, z2, z3, z4, z5, z6, z7⟩

/-- C10: the cap validation compares the cap to the month-1 Total Monthly
Payment AFTER rounding to 2 decimals: for a positive term, rejection happens
iff `cap ≤ pyRound2 (total_monthly_payment p)`. Concretely, at `exLoanHigh`
a cap of 4097 strictly greater than the exact unrounded PITI 4096.996 is
nevertheless rejected, while at `exLoanLow` the cap 4096.004 — equal to,
hence not greater than, the exact PITI — is accepted. -/
theorem c10_validation_uses_rounded_piti :
    (∀ (p : LoanParams) (cap : ℚ), 0 < p.term →
      ((∃ e, adjusted_amortization_schedule p (some cap) = Except.error e) ↔
        cap ≤ pyRound2 (total_monthly_payment p))) ∧
    (total_monthly_payment exLoanHigh < 4097 ∧
      ∃ e, adjusted_amortization_schedule exLoanHigh (some 4097) =
        Except.error e) ∧
    ((4096 + 4/1000 : ℚ) ≤ total_monthly_payment exLoanLow ∧
      ∃ sched, adjusted_amortization_schedule exLoanLow
        (some (4096 + 4/1000)) = Except.ok sched) := by
  refine ⟨?_, ⟨?_, ?_⟩, ⟨?_, ?_⟩⟩
  · intro p cap ht
    rw [← headI_totalMonthlyPayment p ht]
    constructor
    · rintro ⟨e, he⟩
      by_cases hc : cap ≤ (amortization_schedule p).headI.totalMonthlyPayment
      · exact hc
      · rw [adjusted_some_ok p cap (not_le.mp hc)] at he
        exact absurd he (by simp)
    · intro hc
      exact ⟨_, adjusted_some_error p cap hc⟩
  · rw [tmp_exLoanHigh]; norm_num
  · exact ⟨_, adjusted_some_error exLoanHigh 4097
      (le_of_eq headI_tmp_exLoanHigh.symm)⟩
  · rw [tmp_exLoanLow]; norm_num
  · refine ⟨_, adjusted_some_ok exLoanLow (4096 + 4/1000) ?_⟩
    rw [headI_tmp_exLoanLow]; norm_num

/-- Witness for C10's general clause at a concrete input. -/
theorem c10_validation_uses_rounded_piti_witness :
    (∃ e, adjusted_amortization_schedule exLoanHigh (some 4097) =
      Except.error e) ↔
      (4097 : ℚ) ≤ pyRound2 (total_monthly_payment exLoanHigh) :=
  c10_validation_uses_rounded_piti.1 exLoanHigh 4097 (by decide)
